import Mathlib

/-
Verification of the bolter OCI binary artifact manager.

This file shallowly embeds the core of the repository in Lean 4:
the OCI data model (descriptors, manifests, indexes), the push path
(cmd/push.go: pushBinary, createAndPushIndex, getMediaTypeForPlatform),
the pull/run path (pkg/bolter: Pull, Run, parsePlatform,
findManifestForPlatform, pullBinary, setupAuth, getCachePathForRef,
saveCacheMetadata), the docker credential lookup (getDockerCredentials,
normalizeRegistry) and the cache listing (runCached).

Modelling conventions:
- Binary file contents are lists of bytes (List Nat).
- SHA-256 digests and the JSON serialization of manifests and indexes are
  external collaborators (go-digest, encoding/json).  Both are assumed
  collision-free, so a digest is represented by the value it was computed
  over: Digest.ofBytes for digest.FromBytes over raw blob bytes,
  Digest.ofManifest / Digest.ofIndex for digests over the serialized
  manifest/index JSON produced by the push path.
- The registry after a push is a content-addressed store: a list of values
  keyed by their digests.  Pushing tolerates duplicate digests by leaving
  the store unchanged, exactly like the already-exists handling in the
  source.  oras.CopyGraph is modelled by the pushed values being visible
  in the same store the pull path fetches from.
- File systems are association lists from paths to file contents; paths
  are strings joined by the slash separator as filepath.Join does.
-/

namespace Bolter

/-- OCI platform, as in ocispec.Platform: operating system and architecture. -/
structure Platform where
  os : String
  architecture : String
deriving DecidableEq

mutual

/-- A content digest.  Modelled as the content it was computed over
(hashing and serialization are assumed collision-free): ofBytes for raw
blob bytes, ofManifest for the serialized manifest JSON (config descriptor
plus layer descriptors), ofIndex for the serialized index JSON (manifest
descriptors). -/
inductive Digest where
  | ofBytes : List Nat → Digest
  | ofManifest : Descriptor → DescList → Digest
  | ofIndex : DescList → Digest
deriving DecidableEq

/-- ocispec.Descriptor: media type, digest, size, annotations, optional
platform. -/
inductive Descriptor where
  | mk : String → Digest → Nat → List (String × String) → Option Platform → Descriptor
deriving DecidableEq

/-- A list of descriptors, spelled out so that Digest, Descriptor and
DescList form a plain mutual inductive family. -/
inductive DescList where
  | nil : DescList
  | cons : Descriptor → DescList → DescList
deriving DecidableEq

end

def Descriptor.mediaType : Descriptor → String
  | .mk mt _ _ _ _ => mt

def Descriptor.digest : Descriptor → Digest
  | .mk _ d _ _ _ => d

def Descriptor.size : Descriptor → Nat
  | .mk _ _ s _ _ => s

def Descriptor.annotations : Descriptor → List (String × String)
  | .mk _ _ _ a _ => a

def Descriptor.platform : Descriptor → Option Platform
  | .mk _ _ _ _ p => p

def toDescList : List Descriptor → DescList
  | [] => .nil
  | d :: ds => .cons d (toDescList ds)

theorem toDescList_inj : ∀ xs ys, toDescList xs = toDescList ys → xs = ys := by
  intro xs
  induction xs with
  | nil => intro ys h; cases ys <;> simp [toDescList] at h ⊢
  | cons x xt ih =>
    intro ys h
    cases ys with
    | nil => simp [toDescList] at h
    | cons y yt =>
      simp [toDescList] at h
      rw [h.1, ih yt h.2]

/-- ocispec.Manifest: a config descriptor and an ordered list of layer
descriptors. -/
structure Manifest where
  config : Descriptor
  layers : List Descriptor
deriving DecidableEq

/-- ocispec.Index: an ordered list of manifest descriptors. -/
structure Index where
  manifests : List Descriptor
deriving DecidableEq

/-- Digest of the serialized manifest JSON, as digest.FromBytes over the
manifest bytes built in pushBinary. -/
def digestOfManifest (m : Manifest) : Digest :=
  .ofManifest m.config (toDescList m.layers)

/-- Digest of the serialized index JSON, as digest.FromBytes over the index
bytes built in createAndPushIndex. -/
def digestOfIndex (i : Index) : Digest :=
  .ofIndex (toDescList i.manifests)

theorem digestOfManifest_inj {m m' : Manifest} :
    digestOfManifest m = digestOfManifest m' → m = m' := by
  intro h
  cases m; cases m'
  simp only [digestOfManifest, Digest.ofManifest.injEq] at h
  simp only [Manifest.mk.injEq]
  exact ⟨h.1, toDescList_inj _ _ h.2⟩

theorem digestOfIndex_inj {i i' : Index} :
    digestOfIndex i = digestOfIndex i' → i = i' := by
  intro h
  cases i; cases i'
  simp only [digestOfIndex, Digest.ofIndex.injEq] at h
  simp only [Index.mk.injEq]
  exact toDescList_inj _ _ h

/-- ocispec.MediaTypeImageManifest. -/
def MediaTypeImageManifest : String := "application/vnd.oci.image.manifest.v1+json"

/-- ocispec.MediaTypeImageIndex. -/
def MediaTypeImageIndex : String := "application/vnd.oci.image.index.v1+json"

/-- ocispec.MediaTypeImageConfig. -/
def MediaTypeImageConfig : String := "application/vnd.oci.image.config.v1+json"

/-- cmd/push.go getMediaTypeForPlatform: maps a GOOS/GOARCH pair to the
bolter artifact media type, with WASM checked first and a generic fallback. -/
def getMediaTypeForPlatform (goos goarch : String) : String :=
  if goos = "js" ∨ goos = "wasip1" ∨ goarch = "wasm" then
    "application/vnd.bolter.wasm.v1"
  else if goos = "windows" then
    "application/vnd.bolter.windows.exe.v1"
  else if goos = "darwin" then
    "application/vnd.bolter.macho.v1"
  else if goos = "linux" ∨ goos = "freebsd" ∨ goos = "openbsd" ∨ goos = "netbsd" ∨
      goos = "dragonfly" ∨ goos = "solaris" ∨ goos = "illumos" then
    "application/vnd.bolter.elf.v1"
  else if goos = "plan9" then
    "application/vnd.bolter.plan9.v1"
  else if goos = "aix" then
    "application/vnd.bolter.xcoff.v1"
  else
    "application/vnd.bolter.binary.v1"

/-- C4: the media-type mapper is a total function of (os, arch) — it is a
Lean function String → String → String, so totality and absence of a
failure mode hold by construction — and it follows the claimed rule order:
the WASM test (os "js" or "wasip1", or arch "wasm") comes first, then the
os switch with windows, darwin, the seven Unix-like kernels, plan9, aix,
and the generic binary fallback for every other os. -/
theorem getMediaTypeForPlatform_rules (goos goarch : String) :
    (goos = "js" ∨ goos = "wasip1" ∨ goarch = "wasm" →
      getMediaTypeForPlatform goos goarch = "application/vnd.bolter.wasm.v1") ∧
    (goos ≠ "js" → goos ≠ "wasip1" → goarch ≠ "wasm" →
      ((goos = "windows" →
          getMediaTypeForPlatform goos goarch = "application/vnd.bolter.windows.exe.v1") ∧
       (goos = "darwin" →
          getMediaTypeForPlatform goos goarch = "application/vnd.bolter.macho.v1") ∧
       (goos = "linux" ∨ goos = "freebsd" ∨ goos = "openbsd" ∨ goos = "netbsd" ∨
          goos = "dragonfly" ∨ goos = "solaris" ∨ goos = "illumos" →
          getMediaTypeForPlatform goos goarch = "application/vnd.bolter.elf.v1") ∧
       (goos = "plan9" →
          getMediaTypeForPlatform goos goarch = "application/vnd.bolter.plan9.v1") ∧
       (goos = "aix" →
          getMediaTypeForPlatform goos goarch = "application/vnd.bolter.xcoff.v1") ∧
       (goos ≠ "windows" → goos ≠ "darwin" →
        ¬(goos = "linux" ∨ goos = "freebsd" ∨ goos = "openbsd" ∨ goos = "netbsd" ∨
          goos = "dragonfly" ∨ goos = "solaris" ∨ goos = "illumos") →
        goos ≠ "plan9" → goos ≠ "aix" →
          getMediaTypeForPlatform goos goarch = "application/vnd.bolter.binary.v1"))) := by
  constructor
  · intro h
    simp [getMediaTypeForPlatform, h]
  · intro h1 h2 h3
    refine ⟨?_, ?_, ?_, ?_, ?_, ?_⟩
    · intro h; simp [getMediaTypeForPlatform, h1, h2, h3, h]
    · intro h; simp [getMediaTypeForPlatform, h1, h2, h3, h]
    · rintro (rfl | rfl | rfl | rfl | rfl | rfl | rfl) <;>
        simp [getMediaTypeForPlatform, h3]
    · intro h; simp [getMediaTypeForPlatform, h1, h2, h3, h]
    · intro h; simp [getMediaTypeForPlatform, h1, h2, h3, h]
    · intro ha hb hc hd he
      simp only [not_or] at hc
      obtain ⟨c1, c2, c3, c4, c5, c6, c7⟩ := hc
      simp [getMediaTypeForPlatform, h1, h2, h3, ha, hb, c1, c2, c3, c4, c5, c6, c7, hd, he]

/-- Witness for the media-type rules at concrete inputs. -/
theorem getMediaTypeForPlatform_rules_witness :
    getMediaTypeForPlatform ("windows") ("amd64") = "application/vnd.bolter.windows.exe.v1" ∧
    getMediaTypeForPlatform ("js") ("wasm") = "application/vnd.bolter.wasm.v1" ∧
    getMediaTypeForPlatform ("haiku") ("riscv64") = "application/vnd.bolter.binary.v1" :=
  ⟨((getMediaTypeForPlatform_rules ("windows") ("amd64")).2 (by decide) (by decide)
      (by decide)).1 rfl,
   (getMediaTypeForPlatform_rules ("js") ("wasm")).1 (Or.inl rfl),
   ((getMediaTypeForPlatform_rules ("haiku") ("riscv64")).2 (by decide) (by decide)
      (by decide)).2.2.2.2.2 (by decide) (by decide) (by decide) (by decide) (by decide)⟩

/-- A value stored in the content-addressed registry: a raw blob, a
manifest, or an index.  Manifests and indexes live in the registry as
their serialized JSON bytes; the typed value stands for those bytes and
json.Unmarshal recovers it on fetch. -/
inductive RegValue where
  | blob : List Nat → RegValue
  | man : Manifest → RegValue
  | idx : Index → RegValue
deriving DecidableEq

/-- The digest under which a value is stored: digest.FromBytes over the
blob bytes or over the serialized manifest/index JSON. -/
def digestOf : RegValue → Digest
  | .blob data => .ofBytes data
  | .man m => digestOfManifest m
  | .idx i => digestOfIndex i

theorem digestOf_inj : ∀ {v v' : RegValue}, digestOf v = digestOf v' → v = v'
  | .blob _, .blob _, h => by
      simp only [digestOf, Digest.ofBytes.injEq] at h
      rw [h]
  | .man _, .man _, h => by
      rw [digestOfManifest_inj h]
  | .idx _, .idx _, h => by
      rw [digestOfIndex_inj h]
  | .blob _, .man _, h => by simp [digestOf, digestOfManifest] at h
  | .blob _, .idx _, h => by simp [digestOf, digestOfIndex] at h
  | .man _, .blob _, h => by simp [digestOf, digestOfManifest] at h
  | .man _, .idx _, h => by simp [digestOf, digestOfManifest, digestOfIndex] at h
  | .idx _, .blob _, h => by simp [digestOf, digestOfIndex] at h
  | .idx _, .man _, h => by simp [digestOf, digestOfManifest, digestOfIndex] at h

/-- A content-addressed store, standing both for the in-memory store the
push path assembles and for the registry content after oras.CopyGraph. -/
abbrev Store := List RegValue

/-- memory.Store.Push combined with the already-exists tolerance of the
push path: pushing a value whose digest is already present leaves the
store unchanged rather than failing. -/
def pushStore (s : Store) (v : RegValue) : Store :=
  if s.any (fun w => digestOf w == digestOf v) then s else s ++ [v]

/-- Repository.Fetch keyed by digest: the first stored value carrying the
requested digest, none when the digest is absent. -/
def fetch (s : Store) (d : Digest) : Option RegValue :=
  s.find? (fun v => digestOf v == d)

theorem mem_pushStore (s : Store) (v : RegValue) : v ∈ pushStore s v := by
  unfold pushStore
  split
  · rename_i h
    simp only [List.any_eq_true, beq_iff_eq] at h
    obtain ⟨w, hw, he⟩ := h
    rw [← digestOf_inj he]
    exact hw
  · simp

theorem mem_pushStore_mono {s : Store} {w : RegValue} (h : w ∈ s) (v : RegValue) :
    w ∈ pushStore s v := by
  unfold pushStore
  split
  · exact h
  · simp [h]

theorem fetch_of_mem {s : Store} {v : RegValue} (h : v ∈ s) :
    fetch s (digestOf v) = some v := by
  induction s with
  | nil => cases h
  | cons w t ih =>
    rcases List.mem_cons.mp h with rfl | hm
    · simp [fetch, List.find?]
    · by_cases hw : digestOf w = digestOf v
      · rw [digestOf_inj hw]
        simp [fetch, List.find?]
      · have : (digestOf w == digestOf v) = false := by
          simp [hw]
        simpa [fetch, List.find?, this] using ih hm

/-- Scan of a character list for the first slash, mirroring the indexed
range loop in parsePlatform: some (before, after) when a slash occurs,
none otherwise. -/
def splitAtSlash : List Char → Option (List Char × List Char)
  | [] => none
  | c :: rest =>
      if c = '/' then some ([], rest)
      else
        match splitAtSlash rest with
        | some (a, b) => some (c :: a, b)
        | none => none

/-- pkg/bolter parsePlatform: the empty string, and any string without a
slash, fall back to the host platform (runtime.GOOS and runtime.GOARCH,
passed here as hostOS and hostArch); otherwise the string splits at its
first slash into (os, arch). -/
def parsePlatform (hostOS hostArch platform : String) : String × String :=
  if platform = "" then (hostOS, hostArch)
  else
    match splitAtSlash platform.data with
    | some (a, b) => (String.mk a, String.mk b)
    | none => (hostOS, hostArch)

theorem splitAtSlash_eq_none {l : List Char} (h : ∀ c ∈ l, c ≠ '/') :
    splitAtSlash l = none := by
  induction l with
  | nil => rfl
  | cons c rest ih =>
    have hc : c ≠ '/' := h c (List.mem_cons_self c rest)
    have hrest : splitAtSlash rest = none :=
      ih fun x hx => h x (List.mem_cons_of_mem c hx)
    simp [splitAtSlash, hc, hrest]

/-- The platform match used by findManifestForPlatform: the platform field
is non-nil and OS and Architecture both equal the target exactly. -/
def platformMatches (targetOS targetArch : String) (d : Descriptor) : Bool :=
  match d.platform with
  | some p => p.os == targetOS && p.architecture == targetArch
  | none => false

/-- Errors of the pull/run resolution path, mirroring the fmt.Errorf sites
in pkg/bolter. -/
inductive PullErr where
  | resolveFailed
  | fetchFailed
  | unmarshalFailed
  | platformNotFound (os arch : String)
  | unsupportedMediaType (mt : String)
  | noLayers
  | serializedLayer
deriving DecidableEq

/-- pkg/bolter findManifestForPlatform: fetch the index by its descriptor
digest, parse it, and linearly scan index.Manifests for the first entry
with a non-nil platform matching the target; a missing platform is the
error naming the requested os/arch.  Fetching a value that is not an index
is modelled as a JSON unmarshal failure. -/
def findManifestForPlatform (s : Store) (indexDesc : Descriptor)
    (targetOS targetArch : String) : Except PullErr Descriptor :=
  match fetch s indexDesc.digest with
  | none => .error .fetchFailed
  | some (.idx i) =>
      match i.manifests.find? (platformMatches targetOS targetArch) with
      | some d => .ok d
      | none => .error (.platformNotFound targetOS targetArch)
  | some _ => .error .unmarshalFailed

/-- The top-level media-type dispatch shared verbatim by Pull and Run in
pkg/bolter: an image index goes through findManifestForPlatform, an image
manifest is used directly as the selected manifest descriptor, and any
other media type is the unsupported-media-type error. -/
def selectManifestDesc (s : Store) (descriptor : Descriptor)
    (targetOS targetArch : String) : Except PullErr Descriptor :=
  if descriptor.mediaType = MediaTypeImageIndex then
    findManifestForPlatform s descriptor targetOS targetArch
  else if descriptor.mediaType = MediaTypeImageManifest then
    .ok descriptor
  else
    .error (.unsupportedMediaType descriptor.mediaType)

/-- pkg/bolter pullBinary: fetch the selected manifest by digest, parse
it, fail with the manifest-has-no-layers error when Layers is empty,
otherwise fetch Layers[0] and return its bytes as the written output.
A fetched value that is not a manifest is modelled as an unmarshal
failure; a first layer whose digest addresses a manifest or index would
copy serialized bytes that this model does not materialize, marked by the
serializedLayer outcome. -/
def pullBinary (s : Store) (manifestDesc : Descriptor) : Except PullErr (List Nat) :=
  match fetch s manifestDesc.digest with
  | none => .error .fetchFailed
  | some (.man manifest) =>
      match manifest.layers with
      | [] => .error .noLayers
      | layerDesc :: _ =>
          match fetch s layerDesc.digest with
          | none => .error .fetchFailed
          | some (.blob data) => .ok data
          | some _ => .error .serializedLayer
  | some _ => .error .unmarshalFailed

/-- cmd/util.go parsePlatform: identical loop without the leading
empty-string test (the empty string has no slash, so the behavior
coincides). -/
def parsePlatformCmd (hostOS hostArch platform : String) : String × String :=
  match splitAtSlash platform.data with
  | some (a, b) => (String.mk a, String.mk b)
  | none => (hostOS, hostArch)

theorem find?_append_of_none {α : Type} (p : α → Bool) (pre : List α) (d : α)
    (post : List α) (hpre : ∀ e ∈ pre, p e = false) (hd : p d = true) :
    (pre ++ d :: post).find? p = some d := by
  induction pre with
  | nil => simp [List.find?, hd]
  | cons e pt ih =>
    have he := hpre e (List.mem_cons_self e pt)
    rw [List.cons_append]
    rw [List.find?_cons_of_neg _ (by simp [he])]
    exact ih fun x hx => hpre x (List.mem_cons_of_mem e hx)

/-- C9: for every non-empty platform string containing no slash character,
platform parsing does not fail and does not use any part of the string:
the pkg/bolter parsePlatform used by Pull and Run returns the invoking
host's own OS and architecture, exactly as it does for the empty
(unrequested) platform, and the cmd/util.go copy agrees. -/
theorem parsePlatform_no_slash_fallback (hostOS hostArch platform : String)
    (hne : platform ≠ "") (hns : ∀ c ∈ platform.data, c ≠ '/') :
    parsePlatform hostOS hostArch platform = (hostOS, hostArch) ∧
    parsePlatform hostOS hostArch platform = parsePlatform hostOS hostArch "" ∧
    parsePlatformCmd hostOS hostArch platform = (hostOS, hostArch) := by
  have hsplit := splitAtSlash_eq_none hns
  refine ⟨?_, ?_, ?_⟩
  · simp [parsePlatform, hne, hsplit]
  · simp [parsePlatform, hne, hsplit]
  · simp [parsePlatformCmd, hsplit]

/-- Witness: parsing the slash-free string linuxamd64 falls back to the
host platform. -/
theorem parsePlatform_no_slash_fallback_witness :
    parsePlatform ("darwin") ("arm64") ("linuxamd64") = ("darwin", "arm64") :=
  (parsePlatform_no_slash_fallback ("darwin") ("arm64") ("linuxamd64")
    (by decide) (by decide)).1

/-- C2: when the resolved top-level descriptor is an image index, Pull and
Run select the first entry of the manifests list, in list order, whose
platform field is non-nil and whose OS and architecture both exactly match
the target (so with duplicate platform entries the earliest wins); when no
entry matches, the result is the platform-not-found error naming the
requested os/arch. -/
theorem findManifestForPlatform_first_match (s : Store) (indexDesc : Descriptor)
    (i : Index) (targetOS targetArch : String)
    (hidx : fetch s indexDesc.digest = some (.idx i)) :
    (∀ pre d post, i.manifests = pre ++ d :: post →
        (∀ e ∈ pre, platformMatches targetOS targetArch e = false) →
        platformMatches targetOS targetArch d = true →
        findManifestForPlatform s indexDesc targetOS targetArch = .ok d) ∧
    ((∀ d ∈ i.manifests, platformMatches targetOS targetArch d = false) →
        findManifestForPlatform s indexDesc targetOS targetArch =
          .error (.platformNotFound targetOS targetArch)) := by
  constructor
  · intro pre d post hsplit hpre hd
    have hfind : i.manifests.find? (platformMatches targetOS targetArch) = some d := by
      rw [hsplit]
      exact find?_append_of_none _ pre d post hpre hd
    simp [findManifestForPlatform, hidx, hfind]
  · intro hall
    have hfind : i.manifests.find? (platformMatches targetOS targetArch) = none :=
      List.find?_eq_none.mpr fun x hx => by simp [hall x hx]
    simp [findManifestForPlatform, hidx, hfind]

/-- Index fixture for the C2 witness: two entries for linux/amd64, one for
linux/arm64; the scan must return the first linux/amd64 entry. -/
def c2ManifestA : Descriptor :=
  .mk MediaTypeImageManifest (.ofBytes [1]) 1 [] (some ⟨"linux", "amd64"⟩)

def c2ManifestB : Descriptor :=
  .mk MediaTypeImageManifest (.ofBytes [2]) 1 [] (some ⟨"linux", "amd64"⟩)

def c2ManifestC : Descriptor :=
  .mk MediaTypeImageManifest (.ofBytes [3]) 1 [] (some ⟨"linux", "arm64"⟩)

def c2Index : Index := ⟨[c2ManifestC, c2ManifestA, c2ManifestB]⟩

def c2IndexDesc : Descriptor :=
  .mk MediaTypeImageIndex (digestOfIndex c2Index) 0 [] none

/-- Witness: on a store holding the fixture index, the duplicate
linux/amd64 entries resolve to the earlier one, and a platform absent from
the index yields the platform-not-found error naming it. -/
theorem findManifestForPlatform_first_match_witness :
    findManifestForPlatform [.idx c2Index] c2IndexDesc ("linux") ("amd64") =
      .ok c2ManifestA ∧
    findManifestForPlatform [.idx c2Index] c2IndexDesc ("plan9") ("386") =
      .error (.platformNotFound ("plan9") ("386")) :=
  ⟨(findManifestForPlatform_first_match [.idx c2Index] c2IndexDesc c2Index
      ("linux") ("amd64") (by decide)).1 [c2ManifestC] c2ManifestA [c2ManifestB]
      rfl (by decide) (by decide),
   (findManifestForPlatform_first_match [.idx c2Index] c2IndexDesc c2Index
      ("plan9") ("386") (by decide)).2 (by decide)⟩

/-- C3: top-level media-type trichotomy.  If the resolved descriptor's
media type is the image-manifest type, the descriptor itself is the
selected manifest for every requested platform, so the operation cannot
fail on platform grounds; if the media type is neither the image-index nor
the image-manifest type, the result is the unsupported-media-type error.
Together with the index branch these are the only top-level cases of
selectManifestDesc, which both Pull and Run run. -/
theorem selectManifestDesc_trichotomy (s : Store) (descriptor : Descriptor)
    (targetOS targetArch : String) :
    (descriptor.mediaType = MediaTypeImageManifest →
        selectManifestDesc s descriptor targetOS targetArch = .ok descriptor) ∧
    (descriptor.mediaType ≠ MediaTypeImageIndex →
     descriptor.mediaType ≠ MediaTypeImageManifest →
        selectManifestDesc s descriptor targetOS targetArch =
          .error (.unsupportedMediaType descriptor.mediaType)) := by
  constructor
  · intro h
    have hd : MediaTypeImageManifest ≠ MediaTypeImageIndex := by decide
    simp [selectManifestDesc, h, hd]
  · intro h1 h2
    simp [selectManifestDesc, h1, h2]

/-- Witness: a bare image manifest resolves to itself on an arbitrary
platform string and an alien media type is the unsupported error. -/
theorem selectManifestDesc_trichotomy_witness :
    selectManifestDesc [] (.mk MediaTypeImageManifest (.ofBytes []) 0 [] none)
        ("plan9") ("386") =
      .ok (.mk MediaTypeImageManifest (.ofBytes []) 0 [] none) ∧
    selectManifestDesc [] (.mk ("text/plain") (.ofBytes []) 0 [] none)
        ("linux") ("amd64") =
      .error (.unsupportedMediaType ("text/plain")) :=
  ⟨(selectManifestDesc_trichotomy [] (.mk MediaTypeImageManifest (.ofBytes []) 0 [] none)
      ("plan9") ("386")).1 rfl,
   (selectManifestDesc_trichotomy [] (.mk ("text/plain") (.ofBytes []) 0 [] none)
      ("linux") ("amd64")).2 (by decide) (by decide)⟩

/-- C7: with the selected manifest fetched from the store, pullBinary
fails with the manifest-has-no-layers error exactly when the layers list
is empty, and otherwise fetches exactly the first layer, returning its
bytes as output for every possible tail of additional layers — extra
layers are ignored rather than causing a failure. -/
theorem pullBinary_first_layer (s : Store) (manifestDesc : Descriptor) (m : Manifest)
    (hm : fetch s manifestDesc.digest = some (.man m)) :
    (pullBinary s manifestDesc = .error .noLayers ↔ m.layers = []) ∧
    (∀ layerDesc rest data, m.layers = layerDesc :: rest →
        fetch s layerDesc.digest = some (.blob data) →
        pullBinary s manifestDesc = .ok data) := by
  constructor
  · constructor
    · intro h
      cases hl : m.layers with
      | nil => rfl
      | cons l rest =>
        exfalso
        simp only [pullBinary, hm, hl] at h
        rcases hfv : fetch s l.digest with _ | v
        · simp [hfv] at h
        · cases v <;> simp [hfv] at h
    · intro h
      simp [pullBinary, hm, h]
  · intro layerDesc rest data hl hf
    simp [pullBinary, hm, hl, hf]

/-- Manifest fixtures for the C7 witness: one manifest with no layers, one
with a first layer holding bytes 7,7 plus an extra dangling layer that
must be ignored. -/
def c7Config : Descriptor :=
  .mk MediaTypeImageConfig (.ofBytes [123, 125]) 2 [] none

def c7EmptyManifest : Manifest := ⟨c7Config, []⟩

def c7Layer : Descriptor :=
  .mk ("application/vnd.bolter.elf.v1") (.ofBytes [7, 7]) 2 [] none

def c7ExtraLayer : Descriptor :=
  .mk ("application/vnd.bolter.elf.v1") (.ofBytes [9]) 1 [] none

def c7FullManifest : Manifest := ⟨c7Config, [c7Layer, c7ExtraLayer]⟩

def c7Store : Store := [.man c7EmptyManifest, .man c7FullManifest, .blob [7, 7]]

def c7EmptyDesc : Descriptor :=
  .mk MediaTypeImageManifest (digestOfManifest c7EmptyManifest) 0 [] none

def c7FullDesc : Descriptor :=
  .mk MediaTypeImageManifest (digestOfManifest c7FullManifest) 0 [] none

/-- Witness: the empty manifest yields the no-layers error; the two-layer
manifest yields the first layer's bytes even though its second layer's
blob is absent from the store. -/
theorem pullBinary_first_layer_witness :
    pullBinary c7Store c7EmptyDesc = .error .noLayers ∧
    pullBinary c7Store c7FullDesc = .ok [7, 7] :=
  ⟨(pullBinary_first_layer c7Store c7EmptyDesc c7EmptyManifest (by decide)).1.mpr rfl,
   (pullBinary_first_layer c7Store c7FullDesc c7FullManifest (by decide)).2
      c7Layer [c7ExtraLayer] [7, 7] rfl (by decide)⟩

/-- strings.TrimPrefix: drop the prefix when present, otherwise return the
string unchanged. -/
def trimPrefix (s pre : String) : String :=
  if pre.isPrefixOf s then s.drop pre.length else s

/-- strings.Contains for a non-empty substring, via splitOn: the separator
occurs exactly when splitting yields more than one part (the only uses in
the source pass non-empty separators). -/
def containsSubstr (s sub : String) : Bool :=
  (s.splitOn sub).length != 1

/-- cmd normalizeRegistry: strip an https or http scheme prefix, then map
the Docker Hub spellings to the historical v1 endpoint key. -/
def normalizeRegistry (registry : String) : String :=
  let registry := trimPrefix registry ("https://")
  let registry := trimPrefix registry ("http://")
  if registry = "docker.io" ∨ registry = "index.docker.io" then
    "https://index.docker.io/v1/"
  else registry

/-- The ordered candidate key list built in getDockerCredentials: the raw
host, its normalized form, the https-prefixed host, the host with a
docker.io/ prefix trimmed, and for Docker Hub references the three
historical aliases. -/
def registryKeys (registry : String) : List String :=
  [registry, normalizeRegistry registry, "https://" ++ registry,
    trimPrefix registry ("docker.io/")] ++
  (if containsSubstr registry ("docker.io") ∨ registry = "docker.io" then
    ["https://index.docker.io/v1/", "index.docker.io", "docker.io"]
  else [])

/-- strings.SplitN(decoded, colon, 2) as used on a decoded auth value:
some (before, after) at the first colon — the caller requires exactly two
parts, which happens exactly when a colon occurs — and none otherwise. -/
def splitAtColon : List Char → Option (List Char × List Char)
  | [] => none
  | c :: rest =>
      if c = ':' then some ([], rest)
      else
        match splitAtColon rest with
        | some (a, b) => some (c :: a, b)
        | none => none

/-- The docker config file state getDockerCredentials can observe: a
missing or unreadable file (including a failing home-directory lookup),
JSON that does not unmarshal, or a parsed auths object mapping registry
keys to raw base64 auth strings (JSON object keys are unique, so the
association list stands for the Go map). -/
inductive DockerCfg where
  | noFile
  | malformed
  | auths (entries : List (String × String))
deriving DecidableEq

/-- Access config.Auths[key]: the map entry for the key when present. -/
def lookupAuth (entries : List (String × String)) (key : String) : Option String :=
  (entries.find? (fun e => e.1 == key)).map (fun e => e.2)

/-- The candidate-key loop of getDockerCredentials: for each key in order,
a present, non-empty auth entry is base64-decoded (the decoder b64 is the
external encoding/base64 collaborator) and split at its first colon; the
first key for which all of that succeeds yields the credential, and every
failure falls through to the next key. -/
def credsFromKeys (b64 : String → Option String) (entries : List (String × String)) :
    List String → Option (String × String)
  | [] => none
  | key :: rest =>
      match lookupAuth entries key with
      | some a =>
          if a = "" then credsFromKeys b64 entries rest
          else
            match b64 a with
            | none => credsFromKeys b64 entries rest
            | some decoded =>
                match splitAtColon decoded.data with
                | some (u, p) => some (String.mk u, String.mk p)
                | none => credsFromKeys b64 entries rest
      | none => credsFromKeys b64 entries rest

/-- cmd getDockerCredentials: resolve ambient credentials for a registry
host from the docker config file state, trying the ordered candidate keys
and never reporting an error — every failure mode is the absent result. -/
def getDockerCredentials (b64 : String → Option String) (cfg : DockerCfg)
    (registry : String) : Option (String × String) :=
  match cfg with
  | .noFile => none
  | .malformed => none
  | .auths entries => credsFromKeys b64 entries (registryKeys registry)

/-- The credential a configured auth.Client carries
(auth.StaticCredential of username and password). -/
structure AuthClient where
  username : String
  password : String
deriving DecidableEq

/-- pkg/bolter setupAuth: consult the docker config only when an explicit
field is empty, replacing both fields when an ambient credential is found;
configure the client exactly when both resulting fields are non-empty.
The Go function returns an error value that is always nil — the totality
of this function models that. -/
def setupAuth (b64 : String → Option String) (cfg : DockerCfg)
    (registry username password : String) : Option AuthClient :=
  let up :=
    if username = "" ∨ password = "" then
      match getDockerCredentials b64 cfg registry with
      | some (du, dp) => (du, dp)
      | none => (username, password)
    else (username, password)
  if up.1 ≠ "" ∧ up.2 ≠ "" then some ⟨up.1, up.2⟩ else none

/-- C5: whenever both explicit username and password are non-empty the
ambient credential file is never consulted — the result is the same for
every credential-file state and every decoder, even one holding a matching
entry — and the client is configured with exactly the explicit pair. -/
theorem setupAuth_explicit_wins (registry username password : String)
    (hu : username ≠ "") (hp : password ≠ "") :
    ∀ b64 cfg, setupAuth b64 cfg registry username password =
      some ⟨username, password⟩ := by
  intro b64 cfg
  simp [setupAuth, hu, hp]

/-- Witness: explicit alice/secret wins over a present matching ambient
entry for the same registry. -/
theorem setupAuth_explicit_wins_witness :
    setupAuth (fun _ => some ("amb:ient")) (.auths [("ghcr.io", "YW1iOmllbnQ=")])
      ("ghcr.io") ("alice") ("secret") = some ⟨"alice", "secret"⟩ :=
  setupAuth_explicit_wins ("ghcr.io") ("alice") ("secret") (by decide) (by decide)
    (fun _ => some ("amb:ient")) (.auths [("ghcr.io", "YW1iOmllbnQ=")])

theorem credsFromKeys_eq_none (b64 : String → Option String)
    (entries : List (String × String)) (keys : List String)
    (h : ∀ key ∈ keys, ∀ a, lookupAuth entries key = some a →
      a = "" ∨ ∀ d, b64 a = some d → splitAtColon d.data = none) :
    credsFromKeys b64 entries keys = none := by
  induction keys with
  | nil => rfl
  | cons k rest ih =>
    have hrest : credsFromKeys b64 entries rest = none :=
      ih fun key hkey => h key (List.mem_cons_of_mem k hkey)
    rcases hla : lookupAuth entries k with _ | a
    · simp [credsFromKeys, hla, hrest]
    · rcases h k (List.mem_cons_self k rest) a hla with rfl | hcol
      · simp [credsFromKeys, hla, hrest]
      · by_cases ha : a = ""
        · simp [credsFromKeys, hla, ha, hrest]
        · rcases hb : b64 a with _ | d
          · simp [credsFromKeys, hla, ha, hb, hrest]
          · simp [credsFromKeys, hla, ha, hb, hcol d hb, hrest]

/-- C6: ambient credential resolution is a total function — there is no
hard-error outcome — and reports absent in every failure mode: missing or
unreadable file, malformed JSON, and any parsed auths object in which each
candidate key variant either misses, or hits only an empty entry, an auth
value the base64 decoder rejects, or a decoded value without a colon.  In
each such state, authentication setup with no explicit credentials still
returns (its always-nil error) with the client left unauthenticated. -/
theorem getDockerCredentials_absent (b64 : String → Option String)
    (registry : String) (cfg : DockerCfg)
    (h : cfg = .noFile ∨ cfg = .malformed ∨
      ∃ entries, cfg = .auths entries ∧
        ∀ key ∈ registryKeys registry, ∀ a, lookupAuth entries key = some a →
          a = "" ∨ ∀ d, b64 a = some d → splitAtColon d.data = none) :
    getDockerCredentials b64 cfg registry = none ∧
    setupAuth b64 cfg registry "" "" = none := by
  have hg : getDockerCredentials b64 cfg registry = none := by
    rcases h with rfl | rfl | ⟨entries, rfl, hent⟩
    · rfl
    · rfl
    · exact credsFromKeys_eq_none b64 entries (registryKeys registry) hent
  exact ⟨hg, by simp [setupAuth, hg]⟩

/-- Witness: a config whose only entry for the registry carries auth bytes
the base64 decoder rejects yields absent and an unauthenticated client. -/
theorem getDockerCredentials_absent_witness :
    getDockerCredentials (fun _ => none) (.auths [("ghcr.io", "%%%bad%%%")])
      ("ghcr.io") = none ∧
    setupAuth (fun _ => none) (.auths [("ghcr.io", "%%%bad%%%")])
      ("ghcr.io") "" "" = none :=
  getDockerCredentials_absent (fun _ => none) ("ghcr.io")
    (.auths [("ghcr.io", "%%%bad%%%")])
    (Or.inr (Or.inr ⟨[("ghcr.io", "%%%bad%%%")], rfl,
      fun _ _ _ _ => Or.inr fun _ hd => Option.noConfusion hd⟩))

/-- strings.ReplaceAll. -/
def replaceAll (s old new : String) : String := s.replace old new

/-- filepath.Join over clean segments: slash-intercalation. -/
def joinPath : List String → String
  | [] => ""
  | [x] => x
  | x :: y :: rest => x ++ "/" ++ joinPath (y :: rest)

/-- pkg/bolter getCachePathForRef: the cache-slot binary path
cacheDir/registry/repository/tag/os-arch, with colons escaped in the
registry and slashes escaped in the repository. -/
def getCachePathForRef (cacheDir registry repository tag goos arch : String) : String :=
  joinPath [cacheDir, replaceAll registry (":") ("_"),
    replaceAll repository ("/") ("_"), tag, goos ++ "-" ++ arch]

/-- The metadata path built inside saveCacheMetadata (and by
getCacheMetadataPath in the cmd layer):
cacheDir/registry/repository/tag/metadata.json.  The platform does not
appear in it. -/
def cacheMetadataPath (cacheDir registry repository tag : String) : String :=
  joinPath [cacheDir, replaceAll registry (":") ("_"),
    replaceAll repository ("/") ("_"), tag, "metadata.json"]

/-- The cacheMetadata record (the CachedAt wall-clock timestamp is real
time and is not modelled). -/
structure cacheMetadata where
  registry : String
  repository : String
  tag : String
  os : String
  architecture : String
  digest : Digest
  size : Nat
deriving DecidableEq

/-- Modelled content of a cache file: a binary or a metadata record. -/
inductive FileData where
  | bin (data : List Nat)
  | meta (m : cacheMetadata)
deriving DecidableEq

/-- A file system as an association list from paths to contents; a write
prepends, so reading takes the most recent write. -/
abbrev FS := List (String × FileData)

def readFile (fs : FS) (path : String) : Option FileData :=
  (fs.find? (fun e => e.1 == path)).map (fun e => e.2)

def writeFile (fs : FS) (path : String) (d : FileData) : FS :=
  (path, d) :: fs

def fileExists (fs : FS) (path : String) : Bool :=
  (readFile fs path).isSome

theorem readFile_writeFile_self (fs : FS) (path : String) (d : FileData) :
    readFile (writeFile fs path d) path = some d := by
  simp [readFile, writeFile, List.find?]

theorem readFile_writeFile_other (fs : FS) {path path' : String} (d : FileData)
    (h : path' ≠ path) :
    readFile (writeFile fs path d) path' = readFile fs path' := by
  have : (path == path') = false := by
    simp [Ne.symm h]
  simp [readFile, writeFile, List.find?, this]

/-- pkg/bolter saveCacheMetadata: normalize the registry and repository
names, then write the slot's metadata.json record carrying the platform,
digest and size. -/
def saveCacheMetadata (fs : FS) (cacheDir registry repository tag goos arch : String)
    (digest : Digest) (size : Nat) : FS :=
  writeFile fs (cacheMetadataPath cacheDir registry repository tag)
    (.meta ⟨replaceAll registry (":") ("_"), replaceAll repository ("/") ("_"),
      tag, goos, arch, digest, size⟩)

/-- The binary write of the pull path: the fetched layer bytes land at the
cache-slot binary path. -/
def writeBinary (fs : FS) (path : String) (data : List Nat) : FS :=
  writeFile fs path (.bin data)

/-- cmd runCached restricted to one cache slot: the filepath.Walk visit of
the slot finds at most its single metadata.json, reads the record, and
emits one entry when the sibling binary named os-arch from the record
exists; missing metadata or a missing binary contributes no entry. -/
def cachedEntriesForSlot (fs : FS) (cacheDir registry repository tag : String) :
    List (cacheMetadata × String) :=
  match readFile fs (cacheMetadataPath cacheDir registry repository tag) with
  | some (.meta m) =>
      let binaryPath := joinPath [cacheDir, replaceAll registry (":") ("_"),
        replaceAll repository ("/") ("_"), tag, m.os ++ "-" ++ m.architecture]
      match readFile fs binaryPath with
      | some (.bin _) => [(m, binaryPath)]
      | _ => []
  | _ => []

theorem joinPath_last_ne {cacheDir r p t : String} {a b : String} (h : a ≠ b) :
    joinPath [cacheDir, r, p, t, a] ≠ joinPath [cacheDir, r, p, t, b] := by
  intro he
  apply h
  have hd := congrArg String.data he
  simp only [joinPath, String.data_append, List.append_assoc,
    List.append_cancel_left_eq] at hd
  exact String.ext hd

theorem dash_ne_meta (os arch : String) : os ++ "-" ++ arch ≠ "metadata.json" := by
  intro he
  have hd := congrArg String.data he
  have hm : '-' ∈ (os ++ "-" ++ arch).data := by
    simp [String.data_append]
  rw [hd] at hm
  simp at hm

theorem cachedEntriesForSlot_length_le_one (fs : FS)
    (cacheDir registry repository tag : String) :
    (cachedEntriesForSlot fs cacheDir registry repository tag).length ≤ 1 := by
  unfold cachedEntriesForSlot
  split
  · dsimp only
    split <;> simp
  · simp

/-- C10: the cache metadata path depends only on (registry, repository,
tag), never on the platform, so a slot holds at most one metadata record:
caching platform (os1, arch1) and then platform (os2, arch2) under one tag
leaves the second platform's record as the slot's metadata while both
binary files remain on disk, and the cached listing reports at most one
entry for the slot.  The hypothesis asks the two binary file names, not
just the platform pairs, to differ — equal names would share one path. -/
theorem cacheMetadataPath_single_slot (fs : FS)
    (cacheDir registry repository tag os1 arch1 os2 arch2 : String)
    (d1 d2 : Digest) (s1 s2 : Nat) (b1 b2 : List Nat)
    (hname : os1 ++ "-" ++ arch1 ≠ os2 ++ "-" ++ arch2) :
    readFile
        (saveCacheMetadata
          (writeBinary
            (saveCacheMetadata
              (writeBinary fs (getCachePathForRef cacheDir registry repository tag os1 arch1) b1)
              cacheDir registry repository tag os1 arch1 d1 s1)
            (getCachePathForRef cacheDir registry repository tag os2 arch2) b2)
          cacheDir registry repository tag os2 arch2 d2 s2)
        (cacheMetadataPath cacheDir registry repository tag) =
      some (.meta ⟨replaceAll registry (":") ("_"), replaceAll repository ("/") ("_"),
        tag, os2, arch2, d2, s2⟩) ∧
    readFile
        (saveCacheMetadata
          (writeBinary
            (saveCacheMetadata
              (writeBinary fs (getCachePathForRef cacheDir registry repository tag os1 arch1) b1)
              cacheDir registry repository tag os1 arch1 d1 s1)
            (getCachePathForRef cacheDir registry repository tag os2 arch2) b2)
          cacheDir registry repository tag os2 arch2 d2 s2)
        (getCachePathForRef cacheDir registry repository tag os1 arch1) = some (.bin b1) ∧
    readFile
        (saveCacheMetadata
          (writeBinary
            (saveCacheMetadata
              (writeBinary fs (getCachePathForRef cacheDir registry repository tag os1 arch1) b1)
              cacheDir registry repository tag os1 arch1 d1 s1)
            (getCachePathForRef cacheDir registry repository tag os2 arch2) b2)
          cacheDir registry repository tag os2 arch2 d2 s2)
        (getCachePathForRef cacheDir registry repository tag os2 arch2) = some (.bin b2) ∧
    (cachedEntriesForSlot
        (saveCacheMetadata
          (writeBinary
            (saveCacheMetadata
              (writeBinary fs (getCachePathForRef cacheDir registry repository tag os1 arch1) b1)
              cacheDir registry repository tag os1 arch1 d1 s1)
            (getCachePathForRef cacheDir registry repository tag os2 arch2) b2)
          cacheDir registry repository tag os2 arch2 d2 s2)
        cacheDir registry repository tag).length ≤ 1 := by
  have hbin1_ne_meta : getCachePathForRef cacheDir registry repository tag os1 arch1 ≠
      cacheMetadataPath cacheDir registry repository tag :=
    joinPath_last_ne (dash_ne_meta os1 arch1)
  have hbin2_ne_meta : getCachePathForRef cacheDir registry repository tag os2 arch2 ≠
      cacheMetadataPath cacheDir registry repository tag :=
    joinPath_last_ne (dash_ne_meta os2 arch2)
  have hbin_ne : getCachePathForRef cacheDir registry repository tag os1 arch1 ≠
      getCachePathForRef cacheDir registry repository tag os2 arch2 :=
    joinPath_last_ne hname
  refine ⟨?_, ?_, ?_, ?_⟩
  · rw [saveCacheMetadata, readFile_writeFile_self]
  · rw [saveCacheMetadata, readFile_writeFile_other _ _ hbin1_ne_meta]
    rw [writeBinary, readFile_writeFile_other _ _ hbin_ne]
    rw [saveCacheMetadata, readFile_writeFile_other _ _ hbin1_ne_meta]
    rw [writeBinary, readFile_writeFile_self]
  · rw [saveCacheMetadata, readFile_writeFile_other _ _ hbin2_ne_meta]
    rw [writeBinary, readFile_writeFile_self]
  · exact cachedEntriesForSlot_length_le_one _ cacheDir registry repository tag

/-- Witness: caching linux/amd64 and then linux/arm64 under one tag leaves
the arm64 record as the slot's single metadata. -/
theorem cacheMetadataPath_single_slot_witness :
    readFile
        (saveCacheMetadata
          (writeBinary
            (saveCacheMetadata
              (writeBinary [] (getCachePathForRef ("c") ("ghcr.io") ("me/app") ("v1")
                ("linux") ("amd64")) [1])
              ("c") ("ghcr.io") ("me/app") ("v1") ("linux") ("amd64") (.ofBytes [1]) 1)
            (getCachePathForRef ("c") ("ghcr.io") ("me/app") ("v1") ("linux") ("arm64")) [2])
          ("c") ("ghcr.io") ("me/app") ("v1") ("linux") ("arm64") (.ofBytes [2]) 1)
        (cacheMetadataPath ("c") ("ghcr.io") ("me/app") ("v1")) =
      some (.meta ⟨replaceAll ("ghcr.io") (":") ("_"), replaceAll ("me/app") ("/") ("_"),
        "v1", "linux", "arm64", .ofBytes [2], 1⟩) :=
  (cacheMetadataPath_single_slot [] ("c") ("ghcr.io") ("me/app") ("v1")
    ("linux") ("amd64") ("linux") ("arm64") (.ofBytes [1]) (.ofBytes [2]) 1 1 [1] [2]
    (by decide)).1

/-- Registry-side interactions of the run path, in the order Run performs
them: authentication setup, reference resolution, and the index, manifest
and layer fetches. -/
inductive RegistryOp where
  | authSetup
  | resolve
  | fetchIndex
  | fetchManifest
  | fetchLayer
deriving DecidableEq

/-- The registry fetches the top-level dispatch attempts: resolving
through an index fetches the index once; a direct manifest descriptor
fetches nothing at this stage. -/
def selectManifestDescOps (descriptor : Descriptor) : List RegistryOp :=
  if descriptor.mediaType = MediaTypeImageIndex then [.fetchIndex] else []

/-- The registry fetches pullBinary attempts: the manifest fetch always
happens; the layer fetch happens exactly when the manifest parsed and has
a first layer. -/
def pullBinaryOps (s : Store) (manifestDesc : Descriptor) : List RegistryOp :=
  match fetch s manifestDesc.digest with
  | some (.man manifest) =>
      match manifest.layers with
      | [] => [.fetchManifest]
      | _ :: _ => [.fetchManifest, .fetchLayer]
  | _ => [.fetchManifest]

/-- The outcome of Run: execution of a binary at a path against the
resulting file system, or a reported failure. -/
inductive RunOutcome where
  | executed (path : String) (fs : FS)
  | failed (e : PullErr)
deriving DecidableEq

/-- pkg/bolter Run: derive the cache-slot binary path; with caching
enabled and that binary file present — the guard stats only the binary
path, never the metadata record — execute it at once; otherwise set up
authentication, resolve the reference (resolveRef is the registry's tag
state), dispatch on the top-level media type, pull the binary into the
cache slot, record metadata and execute.  The first component lists the
registry operations performed. -/
def Run (fs : FS) (s : Store) (resolveRef : Option Descriptor)
    (cacheDir registry repository tag targetOS targetArch : String)
    (noCache : Bool) : List RegistryOp × RunOutcome :=
  let cachedBinary := getCachePathForRef cacheDir registry repository tag targetOS targetArch
  if noCache = false ∧ fileExists fs cachedBinary = true then
    ([], .executed cachedBinary fs)
  else
    match resolveRef with
    | none => ([.authSetup, .resolve], .failed .resolveFailed)
    | some descriptor =>
        match selectManifestDesc s descriptor targetOS targetArch with
        | .error e =>
            ([.authSetup, .resolve] ++ selectManifestDescOps descriptor, .failed e)
        | .ok manifestDesc =>
            match pullBinary s manifestDesc with
            | .error e =>
                ([.authSetup, .resolve] ++ selectManifestDescOps descriptor ++
                  pullBinaryOps s manifestDesc, .failed e)
            | .ok data =>
                ([.authSetup, .resolve] ++ selectManifestDescOps descriptor ++
                  pullBinaryOps s manifestDesc,
                 .executed cachedBinary
                   (saveCacheMetadata (writeBinary fs cachedBinary data)
                     cacheDir registry repository tag targetOS targetArch
                     manifestDesc.digest data.length))

/-- C8: with caching enabled (NoCache false) and the cache-slot binary
present, Run performs no registry operation at all — no authentication
setup, no resolve, no fetch — and executes the existing cached file with
the file system untouched.  The presence guard consults only the binary
file's existence: the theorem quantifies over every file system containing
that binary, so a missing or stale metadata record never invalidates the
hit. -/
theorem Run_cache_hit (fs : FS) (s : Store) (resolveRef : Option Descriptor)
    (cacheDir registry repository tag targetOS targetArch : String)
    (hbin : fileExists fs
      (getCachePathForRef cacheDir registry repository tag targetOS targetArch) = true) :
    Run fs s resolveRef cacheDir registry repository tag targetOS targetArch false =
      ([], .executed
        (getCachePathForRef cacheDir registry repository tag targetOS targetArch) fs) := by
  simp [Run, hbin]

/-- Witness: a cache holding only the slot binary — no metadata record at
all — short-circuits Run to zero registry operations even though the
registry state would fail every fetch. -/
theorem Run_cache_hit_witness :
    Run [(getCachePathForRef ("c") ("ghcr.io") ("me/app") ("v1") ("linux") ("amd64"),
          .bin [7])]
        [] none ("c") ("ghcr.io") ("me/app") ("v1") ("linux") ("amd64") false =
      ([], .executed (getCachePathForRef ("c") ("ghcr.io") ("me/app") ("v1")
        ("linux") ("amd64"))
        [(getCachePathForRef ("c") ("ghcr.io") ("me/app") ("v1") ("linux") ("amd64"),
          .bin [7])]) :=
  Run_cache_hit
    [(getCachePathForRef ("c") ("ghcr.io") ("me/app") ("v1") ("linux") ("amd64"), .bin [7])]
    [] none ("c") ("ghcr.io") ("me/app") ("v1") ("linux") ("amd64")
    (by simp [fileExists, readFile, List.find?])

/-- The two config bytes of the fixed empty JSON object shared by every
pushed manifest (the byte values of the open and close braces). -/
def configData : List Nat := [123, 125]

/-- The shared placeholder config descriptor built in pushBinary. -/
def configDesc : Descriptor := .mk MediaTypeImageConfig (.ofBytes configData) 2 [] none

/-- The org.opencontainers.image.title annotation key. -/
def titleKey : String := "org.opencontainers.image.title"

/-- The binary layer descriptor pushBinary builds for one platform binary:
media type from the mapper, digest over the exact bytes, size the byte
length, and the os-arch title annotation. -/
def binaryDescFor (goos goarch : String) (data : List Nat) : Descriptor :=
  .mk (getMediaTypeForPlatform goos goarch) (.ofBytes data) data.length
    [(titleKey, goos ++ "-" ++ goarch)] none

/-- The single-layer manifest pushBinary serializes: the shared config
plus the binary layer. -/
def manifestFor (goos goarch : String) (data : List Nat) : Manifest :=
  ⟨configDesc, [binaryDescFor goos goarch data]⟩

/-- The manifest descriptor pushBinary returns: image-manifest media type,
digest over the serialized manifest bytes, and the platform key.  The
serialized byte length is not reproduced by the model; no modelled
operation consults this size field, recorded as zero. -/
def manifestDescFor (goos goarch : String) (data : List Nat) : Descriptor :=
  .mk MediaTypeImageManifest (digestOfManifest (manifestFor goos goarch data)) 0 []
    (some ⟨goos, goarch⟩)

/-- cmd/push.go pushBinary on the store side: push the binary blob, the
config blob and the manifest — each tolerating an already-exists response
— and return the platform-carrying manifest descriptor.  oras.CopyGraph
then makes the same content visible registry-side, modelled by the single
shared store. -/
def pushBinary (s : Store) (goos goarch : String) (data : List Nat) :
    Store × Descriptor :=
  (pushStore (pushStore (pushStore s (.blob data)) (.blob configData))
    (.man (manifestFor goos goarch data)),
   manifestDescFor goos goarch data)

/-- runPush's loop over the platform binaries, in input order, collecting
the manifest descriptors. -/
def pushAll (s : Store) : List (String × String × List Nat) → Store × List Descriptor
  | [] => (s, [])
  | (goos, goarch, data) :: rest =>
      let r1 := pushBinary s goos goarch data
      let r2 := pushAll r1.1 rest
      (r2.1, r1.2 :: r2.2)

/-- cmd/push.go createAndPushIndex: push the index over the collected
manifest descriptors, in order, and return the index descriptor which
runPush then tags. -/
def createAndPushIndex (s : Store) (manifests : List Descriptor) : Store × Descriptor :=
  (pushStore s (.idx ⟨manifests⟩),
   .mk MediaTypeImageIndex (digestOfIndex ⟨manifests⟩) 0 [] none)

/-- The whole push command for one tag starting from an empty store: push
every binary, then the index; the returned descriptor is what the pushed
tag afterwards resolves to. -/
def runPush (binaries : List (String × String × List Nat)) : Store × Descriptor :=
  createAndPushIndex (pushAll [] binaries).1 (pushAll [] binaries).2

/-- Pull for one platform against the resolved top-level descriptor: the
top-level media-type dispatch of Pull followed by pullBinary; on success
the selected manifest descriptor is returned next to the output bytes. -/
def pullForPlatform (s : Store) (topDesc : Descriptor) (targetOS targetArch : String) :
    Except PullErr (Descriptor × List Nat) :=
  match selectManifestDesc s topDesc targetOS targetArch with
  | .error e => .error e
  | .ok manifestDesc =>
      match pullBinary s manifestDesc with
      | .error e => .error e
      | .ok data => .ok (manifestDesc, data)

theorem pushBinary_mono {s : Store} {w : RegValue} (h : w ∈ s)
    (goos goarch : String) (data : List Nat) :
    w ∈ (pushBinary s goos goarch data).1 :=
  mem_pushStore_mono (mem_pushStore_mono (mem_pushStore_mono h _) _) _

theorem pushBinary_mem_blob (s : Store) (goos goarch : String) (data : List Nat) :
    RegValue.blob data ∈ (pushBinary s goos goarch data).1 :=
  mem_pushStore_mono (mem_pushStore_mono (mem_pushStore _ _) _) _

theorem pushBinary_mem_man (s : Store) (goos goarch : String) (data : List Nat) :
    RegValue.man (manifestFor goos goarch data) ∈ (pushBinary s goos goarch data).1 :=
  mem_pushStore _ _

theorem pushAll_mono {w : RegValue} :
    ∀ (bs : List (String × String × List Nat)) (s : Store), w ∈ s →
      w ∈ (pushAll s bs).1
  | [], _, h => h
  | (goos, goarch, data) :: rest, _, h =>
      pushAll_mono rest _ (pushBinary_mono h goos goarch data)

theorem pushAll_mem {goos goarch : String} {data : List Nat} :
    ∀ (bs : List (String × String × List Nat)) (s : Store),
      (goos, goarch, data) ∈ bs →
      RegValue.man (manifestFor goos goarch data) ∈ (pushAll s bs).1 ∧
      RegValue.blob data ∈ (pushAll s bs).1
  | [], _, h => absurd h (List.not_mem_nil _)
  | (go, ga, dt) :: rest, s, h => by
      rcases List.mem_cons.mp h with he | ht
      · simp only [Prod.mk.injEq] at he
        obtain ⟨rfl, rfl, rfl⟩ := he
        exact ⟨pushAll_mono rest _ (pushBinary_mem_man s goos goarch data),
          pushAll_mono rest _ (pushBinary_mem_blob s goos goarch data)⟩
      · exact pushAll_mem rest _ ht

theorem pushAll_descs :
    ∀ (bs : List (String × String × List Nat)) (s : Store),
      (pushAll s bs).2 = bs.map (fun b => manifestDescFor b.1 b.2.1 b.2.2)
  | [], _ => rfl
  | (go, ga, dt) :: rest, s => by
      simp [pushAll, pushBinary, pushAll_descs rest]

theorem find_manifestDesc {goos goarch : String} {data : List Nat} :
    ∀ bs : List (String × String × List Nat),
      (goos, goarch, data) ∈ bs →
      (bs.map (fun b => (b.1, b.2.1))).Nodup →
      (bs.map (fun b => manifestDescFor b.1 b.2.1 b.2.2)).find?
          (platformMatches goos goarch) = some (manifestDescFor goos goarch data)
  | [], h, _ => absurd h (List.not_mem_nil _)
  | (go, ga, dt) :: rest, h, hnd => by
      rcases List.mem_cons.mp h with he | ht
      · simp only [Prod.mk.injEq] at he
        obtain ⟨rfl, rfl, rfl⟩ := he
        simp [List.find?, platformMatches, manifestDescFor, Descriptor.platform]
      · have hpair : (goos, goarch) ∈ rest.map (fun b => (b.1, b.2.1)) :=
          List.mem_map.mpr ⟨(goos, goarch, data), ht, rfl⟩
        have hnd' : ((go, ga) :: rest.map (fun b => (b.1, b.2.1))).Nodup := by
          simpa using hnd
        have hne : (go, ga) ≠ (goos, goarch) := by
          intro he
          exact (List.nodup_cons.mp hnd').1 (he ▸ hpair)
        have hm : platformMatches goos goarch (manifestDescFor go ga dt) = false := by
          by_cases h1 : go = goos
          · by_cases h2 : ga = goarch
            · exact absurd (by rw [h1, h2]) hne
            · simp [platformMatches, manifestDescFor, Descriptor.platform, h2]
          · simp [platformMatches, manifestDescFor, Descriptor.platform, h1]
        rw [List.map_cons, List.find?_cons_of_neg _ (by simp [hm])]
        exact find_manifestDesc rest ht (List.nodup_cons.mp hnd').2

/-- C1: round-trip.  For every finite input list of platform binaries with
pairwise distinct (os, arch) keys, pushing them under one tag and pulling
that tag for any of those platforms succeeds with output bytes identical
to that platform's original binary, and the layer descriptor recorded in
that platform's manifest carries exactly the digest of those bytes and
their byte length. -/
theorem push_pull_roundtrip
    (binaries : List (String × String × List Nat))
    (hdist : (binaries.map (fun b => (b.1, b.2.1))).Nodup)
    (goos goarch : String) (data : List Nat)
    (hmem : (goos, goarch, data) ∈ binaries) :
    pullForPlatform (runPush binaries).1 (runPush binaries).2 goos goarch =
      .ok (manifestDescFor goos goarch data, data) ∧
    (manifestFor goos goarch data).layers = [binaryDescFor goos goarch data] ∧
    (binaryDescFor goos goarch data).digest = .ofBytes data ∧
    (binaryDescFor goos goarch data).size = data.length := by
  refine ⟨?_, rfl, rfl, rfl⟩
  have hidx_mem : RegValue.idx ⟨(pushAll [] binaries).2⟩ ∈ (runPush binaries).1 :=
    mem_pushStore _ _
  have hman_mem : RegValue.man (manifestFor goos goarch data) ∈ (runPush binaries).1 :=
    mem_pushStore_mono (pushAll_mem binaries [] hmem).1 _
  have hblob_mem : RegValue.blob data ∈ (runPush binaries).1 :=
    mem_pushStore_mono (pushAll_mem binaries [] hmem).2 _
  have hfetch_idx := fetch_of_mem hidx_mem
  have hfetch_man := fetch_of_mem hman_mem
  have hfetch_blob := fetch_of_mem hblob_mem
  simp only [digestOf] at hfetch_idx hfetch_man hfetch_blob
  have hfind := find_manifestDesc binaries hmem hdist
  have hds := pushAll_descs binaries []
  have hsel : selectManifestDesc (runPush binaries).1 (runPush binaries).2 goos goarch =
      .ok (manifestDescFor goos goarch data) := by
    have htop : (runPush binaries).2 =
        .mk MediaTypeImageIndex (digestOfIndex ⟨(pushAll [] binaries).2⟩) 0 [] none := rfl
    rw [htop, hds]
    rw [hds] at hfetch_idx
    simp [selectManifestDesc, findManifestForPlatform, Descriptor.mediaType,
      Descriptor.digest, hfetch_idx, hfind]
  have hdig : (manifestDescFor goos goarch data).digest =
      digestOfManifest (manifestFor goos goarch data) := rfl
  have hlay : (manifestFor goos goarch data).layers = [binaryDescFor goos goarch data] := rfl
  have hldig : (binaryDescFor goos goarch data).digest = .ofBytes data := rfl
  have hpull : pullBinary (runPush binaries).1 (manifestDescFor goos goarch data) =
      .ok data := by
    simp [pullBinary, hdig, hfetch_man, hlay, hldig, hfetch_blob]
  simp [pullForPlatform, hsel, hpull]

/-- Witness: the spec's concrete scenario — push TEST bytes for
linux/amd64 and TEX2 bytes for linux/arm64 under one tag, then pull
linux/amd64 and get exactly the TEST bytes back. -/
theorem push_pull_roundtrip_witness :
    pullForPlatform
        (runPush [("linux", "amd64", [84, 69, 83, 84]), ("linux", "arm64", [84, 69, 88, 50])]).1
        (runPush [("linux", "amd64", [84, 69, 83, 84]), ("linux", "arm64", [84, 69, 88, 50])]).2
        ("linux") ("amd64") =
      .ok (manifestDescFor ("linux") ("amd64") [84, 69, 83, 84], [84, 69, 83, 84]) :=
  (push_pull_roundtrip
    [("linux", "amd64", [84, 69, 83, 84]), ("linux", "arm64", [84, 69, 88, 50])]
    (by decide) ("linux") ("amd64") [84, 69, 83, 84] (by decide)).1

end Bolter
